import Mathlib

/-
Verification of the tinylake SQL-subset query engine
(internal/queryparser/parser.go and internal/engine/executor.go).

The embedding models Go's float64 as ℚ (exact rationals).  All arithmetic
exercised by the claims is exact, so this is faithful there; IEEE-specific
behaviour (division by a zero divisor producing Inf/NaN, float rounding)
is not relied on by any theorem and is noted where it diverges.
Go panics are modelled explicitly as a distinguished result constructor,
separate from returned error values (which are modelled as their message
strings, exactly as built by fmt.Errorf in the source).
Unicode character classes (unicode.IsLetter, unicode.IsDigit,
unicode.IsSpace) are modelled by their ASCII behaviour, which coincides
with Go on every input appearing in the claims.
-/

namespace TinyLake

/-! ## Dynamic values (Go interface{} holding float64 / string / bool / nil) -/

/-- A dynamic value produced by expression evaluation: Go's `interface{}`
restricted to the types the engine actually produces. `null` is Go's nil. -/
inductive Value where
  | f (x : ℚ)
  | s (v : String)
  | b (v : Bool)
  | null
  deriving DecidableEq, Repr

/-- Digits of a numeric lexeme folded to a natural number. -/
def digitsToNat (l : List Char) : Nat :=
  l.foldl (fun a c => a * 10 + (c.toNat - 48)) 0

/-- Go strconv.ParseFloat on the decimal subset: optional sign, digits with
at most one dot, optional decimal exponent.  (Go additionally accepts
hex floats, Inf and NaN spellings; none occur in this engine's inputs.) -/
def goParseFloat (str : String) : Option ℚ :=
  let cs0 := str.data
  let sgn : ℚ := if cs0.head? = some '-' then -1 else 1
  let cs := if cs0.head? = some '-' ∨ cs0.head? = some '+' then cs0.tail else cs0
  let ip := cs.takeWhile Char.isDigit
  let cs1 := cs.dropWhile Char.isDigit
  let fp := if cs1.head? = some '.' then cs1.tail.takeWhile Char.isDigit else []
  let cs2 := if cs1.head? = some '.' then cs1.tail.dropWhile Char.isDigit else cs1
  if ip.isEmpty ∧ fp.isEmpty then none
  else
    let mant : ℚ := sgn * ((digitsToNat ip : ℚ) + (digitsToNat fp : ℚ) / ((10 : ℚ) ^ fp.length))
    match cs2 with
    | [] => some mant
    | e :: t =>
      if e = 'e' ∨ e = 'E' then
        let esgn : Int := if t.head? = some '-' then -1 else 1
        let t2 := if t.head? = some '-' ∨ t.head? = some '+' then t.tail else t
        let ed := t2.takeWhile Char.isDigit
        let rest := t2.dropWhile Char.isDigit
        if ed.isEmpty ∨ ¬rest.isEmpty then none
        else some (mant * (10 : ℚ) ^ (esgn * (digitsToNat ed : Int)))
      else none

/-- Engine helper toFloat: float passes through, a string is parsed with
ParseFloat (parse failure yields 0, matching the discarded error), anything
else (bool, nil) is the zero value 0. -/
def toFloat : Value → ℚ
  | .f x => x
  | .s v => (goParseFloat v).getD 0
  | _ => 0

/-- Engine helper toBool: bool passes through, nonzero float is true,
non-empty string is true, anything else (nil) is false. -/
def toBool : Value → Bool
  | .b v => v
  | .f x => decide (x ≠ 0)
  | .s v => decide (v ≠ "")
  | _ => false

/-- Go `==` on the interface values the engine produces: equal iff same
dynamic type and same value (nil == nil is true).  (Go's float64 == differs
only on NaN, which the ℚ model cannot produce.) -/
def goEq : Value → Value → Bool
  | .f x, .f y => decide (x = y)
  | .s v, .s w => decide (v = w)
  | .b v, .b w => decide (v = w)
  | .null, .null => true
  | _, _ => false

/-- Dynamic-type tag of a value, for stating type-mismatch properties. -/
def vtag : Value → Nat
  | .f _ => 0
  | .s _ => 1
  | .b _ => 2
  | .null => 3

/-! ## Go fmt "%v" rendering (used by groupKey.String) -/

/-- One decimal digit as a character. -/
def digitChar (n : Nat) : Char := Char.ofNat (48 + n)

/-- Decimal digits of a natural number. -/
def natDigits (n : Nat) : String := toString n

/-- Fractional decimal expansion of 0 ≤ q < 1, up to `fuel` digits.
Rationals arising from the claims' inputs terminate well within the fuel. -/
def fracDigits (q : ℚ) (fuel : Nat) : List Char :=
  match fuel with
  | 0 => []
  | fuel + 1 =>
    if q = 0 then []
    else
      let q10 := q * 10
      let d := q10.floor
      digitChar d.toNat :: fracDigits (q10 - (d : ℚ)) fuel

/-- Go fmt %v of a float64, on the exactly-representable decimals the
claims exercise: integral values print with no decimal point ("5"),
others with their decimal expansion ("2.5").  (Go switches to exponent
notation for very large/small magnitudes; unexercised here.) -/
def goFormatFloatAbs (q : ℚ) : String :=
  let ipart := q.floor.toNat
  let frac := q - (q.floor : ℚ)
  if frac = 0 then natDigits ipart
  else natDigits ipart ++ "." ++ String.mk (fracDigits frac 17)

def goFormatFloat (q : ℚ) : String :=
  if q < 0 then "-" ++ goFormatFloatAbs (-q) else goFormatFloatAbs q

/-- Go fmt %v of a dynamic value: floats as above, strings verbatim,
bools as "true"/"false", a nil interface as "<nil>". -/
def goFormat : Value → String
  | .f x => goFormatFloat x
  | .s v => v
  | .b true => "true"
  | .b false => "false"
  | .null => "<nil>"

/-! ## Expression AST and Query (package queryparser) -/

/-- The expression AST.  The parser version under src produces only the
first three variants; FuncCall and StarExpr are the variants the engine
consumes (declared in the same package). -/
inductive Expression where
  | ColumnRef (name : String)
  | Literal (value : String)
  | BinaryExpr (left : Expression) (op : String) (right : Expression)
  | FuncCall (name : String) (args : List Expression)
  | StarExpr
  deriving Repr

/-- A parsed query.  The parser under src has no GROUP BY syntax and always
leaves GroupBy empty; the engine reads the field. -/
structure Query where
  Projections : List Expression
  TableName : String
  Where : Option Expression
  GroupBy : List Expression
  deriving Repr

/-! ## Lexer (queryparser.Lexer.NextToken) -/

inductive TokenType where
  | TOKEN_EOF
  | TOKEN_SELECT
  | TOKEN_FROM
  | TOKEN_WHERE
  | TOKEN_IDENTIFIER
  | TOKEN_OPERATOR
  | TOKEN_LITERAL
  | TOKEN_COMMA
  deriving DecidableEq, Repr

structure Token where
  type : TokenType
  literal : String
  deriving DecidableEq, Repr

/-- strings.ToUpper (ASCII): uppercase every character.  Structural
replacement for String.toUpper (whose well-founded mapAux does not
reduce definitionally); extensionally the same function. -/
def strToUpper (s : String) : String := String.mk (s.data.map Char.toUpper)

/-- unicode.IsSpace, on ASCII. -/
def isSpace (c : Char) : Bool := c.isWhitespace

/-- isLetter from the source: unicode.IsLetter (ASCII model) or '_'. -/
def isLetter (c : Char) : Bool := c.isAlpha || c = '_'

/-- isDigit from the source: unicode.IsDigit (ASCII model). -/
def isDigit (c : Char) : Bool := c.isDigit

/-- A lexing step result: the produced token plus the remaining input, or a
Go panic with its message.  The cursor-based Go lexer is modelled by the
suffix of the input after the cursor. -/
inductive LexRes where
  | ok (t : Token) (rest : List Char)
  | panic (msg : String)
  deriving DecidableEq, Repr

/-- The numeric-literal scan: consumes digits allowing at most one '.';
a second '.' terminates the literal.  Returns (consumed, rest). -/
def numScan : List Char → Bool → List Char × List Char
  | [], _ => ([], [])
  | c :: t, hasDot =>
    if c = '.' then
      if hasDot then ([], c :: t)
      else
        let (d, r) := numScan t true
        ('.' :: d, r)
    else if isDigit c then
      let (d, r) := numScan t hasDot
      (c :: d, r)
    else ([], c :: t)

/-- Lexer.NextToken: skip whitespace, then classify by the first character:
keyword/identifier runs, numeric literals, the operators > < =, the comma;
any other character panics with "unexpected character: <c>". -/
def NextToken (input : List Char) : LexRes :=
  match input.dropWhile isSpace with
  | [] => .ok ⟨.TOKEN_EOF, ""⟩ []
  | ch :: rest =>
    if isLetter ch then
      let word := String.mk ((ch :: rest).takeWhile (fun c => isLetter c || isDigit c))
      let r := (ch :: rest).dropWhile (fun c => isLetter c || isDigit c)
      match strToUpper word with
      | "SELECT" => .ok ⟨.TOKEN_SELECT, word⟩ r
      | "FROM" => .ok ⟨.TOKEN_FROM, word⟩ r
      | "WHERE" => .ok ⟨.TOKEN_WHERE, word⟩ r
      | _ => .ok ⟨.TOKEN_IDENTIFIER, word⟩ r
    else if isDigit ch ∨ ch = '.' then
      let (d, r) := numScan (ch :: rest) false
      .ok ⟨.TOKEN_LITERAL, String.mk d⟩ r
    else if ch = '>' ∨ ch = '<' ∨ ch = '=' then
      .ok ⟨.TOKEN_OPERATOR, String.mk [ch]⟩ rest
    else if ch = ',' then
      .ok ⟨.TOKEN_COMMA, ","⟩ rest
    else
      .panic ("unexpected character: " ++ String.mk [ch])

/-! ## Parser (queryparser.Parser) -/

/-- Parser state: the one-token lookahead and the unread input suffix. -/
structure PState where
  curr : Token
  rest : List Char
  deriving DecidableEq, Repr

/-- A parsing step result, or a Go panic with its message. -/
inductive PRes (α : Type) where
  | ok (a : α) (st : PState)
  | panic (msg : String)

/-- Parser.eat: panic "unexpected token: <text>" on a kind mismatch, else
advance the lookahead by one lexer step. -/
def eat (st : PState) (t : TokenType) : PRes Unit :=
  if st.curr.type = t then
    match NextToken st.rest with
    | .ok t' r => .ok () ⟨t', r⟩
    | .panic m => .panic m
  else .panic ("unexpected token: " ++ st.curr.literal)

/-- Parser.parsePrimary: an identifier becomes a ColumnRef, a literal a
Literal, anything else panics "unexpected token in primary: <text>". -/
def parsePrimary (st : PState) : PRes Expression :=
  match st.curr.type with
  | .TOKEN_IDENTIFIER =>
    let ident := st.curr.literal
    match eat st .TOKEN_IDENTIFIER with
    | .ok _ st1 => .ok (.ColumnRef ident) st1
    | .panic m => .panic m
  | .TOKEN_LITERAL =>
    let val := st.curr.literal
    match eat st .TOKEN_LITERAL with
    | .ok _ st1 => .ok (.Literal val) st1
    | .panic m => .panic m
  | _ => .panic ("unexpected token in primary: " ++ st.curr.literal)

/-- Parser.parseExpression: one primary, optionally followed by a single
operator token and a second primary.  (No precedence climbing in this
parser version: at most one binary operator is consumed.) -/
def parseExpression (st : PState) : PRes Expression :=
  match parsePrimary st with
  | .panic m => .panic m
  | .ok left st1 =>
    if st1.curr.type = .TOKEN_OPERATOR then
      let op := st1.curr.literal
      match eat st1 .TOKEN_OPERATOR with
      | .panic m => .panic m
      | .ok _ st2 =>
        match parsePrimary st2 with
        | .panic m => .panic m
        | .ok right st3 => .ok (.BinaryExpr left op right) st3
    else .ok left st1

/-- The comma-separated projection loop of Parser.Parse.  The fuel bounds
the number of iterations; each real iteration consumes input, so any fuel
of at least the input length is enough. -/
def ParseLoop (fuel : Nat) (st : PState) (acc : List Expression) : PRes (List Expression) :=
  match fuel with
  | 0 => .panic "out of fuel"
  | fuel + 1 =>
    if st.curr.type = .TOKEN_COMMA then
      match eat st .TOKEN_COMMA with
      | .panic m => .panic m
      | .ok _ st1 =>
        match parseExpression st1 with
        | .panic m => .panic m
        | .ok e st2 => ParseLoop fuel st2 (acc ++ [e])
    else .ok acc st

/-- Parser.Parse: SELECT projections FROM identifier [WHERE expression].
Returns as soon as the optional WHERE expression is parsed, without
checking that the input is exhausted. -/
def Parse (fuel : Nat) (st : PState) : PRes Query :=
  match eat st .TOKEN_SELECT with
  | .panic m => .panic m
  | .ok _ st1 =>
    match parseExpression st1 with
    | .panic m => .panic m
    | .ok e st2 =>
      match ParseLoop fuel st2 [e] with
      | .panic m => .panic m
      | .ok projections st3 =>
        match eat st3 .TOKEN_FROM with
        | .panic m => .panic m
        | .ok _ st4 =>
          if st4.curr.type = .TOKEN_IDENTIFIER then
            let tableName := st4.curr.literal
            match eat st4 .TOKEN_IDENTIFIER with
            | .panic m => .panic m
            | .ok _ st5 =>
              if st5.curr.type = .TOKEN_WHERE then
                match eat st5 .TOKEN_WHERE with
                | .panic m => .panic m
                | .ok _ st6 =>
                  match parseExpression st6 with
                  | .panic m => .panic m
                  | .ok w st7 => .ok ⟨projections, tableName, some w, []⟩ st7
              else .ok ⟨projections, tableName, none, []⟩ st5
          else .panic "expected table name"

/-- NewParser followed by Parse: lex the first lookahead token and run the
parser with ample fuel. -/
def parseQuery (s : String) : PRes Query :=
  match NextToken s.data with
  | .ok t r => Parse (s.length + 1) ⟨t, r⟩
  | .panic m => .panic m

/-! ## Tables (the Arrow record contract the engine reads) -/

/-- Arrow data types the engine supports (arrow.STRING, arrow.FLOAT64). -/
inductive CType where
  | float64
  | utf8
  deriving DecidableEq, Repr

/-- A schema field: name, type (none models Arrow's nil DataType in a
zero-valued arrow.Field), nullability. -/
structure Field where
  name : String
  typ : Option CType
  nullable : Bool
  deriving DecidableEq, Repr

/-- A column: nullable float64 cells, nullable string cells, or a column of
an unsupported Arrow type (carrying the Go type string %T would print). -/
inductive Col where
  | floats (cells : List (Option ℚ))
  | strings (cells : List (Option String))
  | other (goType : String)
  deriving DecidableEq, Repr

/-- An Arrow record: schema fields, columns, and a row count.  Arrow keeps
the row count separately from the column lengths, and NewRecord does not
validate them against each other — the engine exploits this (see C1). -/
structure Rec where
  fields : List Field
  cols : List Col
  numRows : Nat
  deriving DecidableEq, Repr

/-- An engine computation result: a returned value, a returned Go error
(its message string), or a Go panic. -/
inductive ERes (α : Type) where
  | ok (a : α)
  | err (e : String)
  | panic (msg : String)
  deriving DecidableEq, Repr

/-- Decidable equality of Except results, for evaluating concrete runs. -/
instance {e a : Type} [DecidableEq e] [DecidableEq a] : DecidableEq (Except e a) := fun x y =>
  match x, y with
  | .ok v, .ok w =>
    if h : v = w then isTrue (by rw [h]) else isFalse (fun hh => by cases hh; exact h rfl)
  | .error v, .error w =>
    if h : v = w then isTrue (by rw [h]) else isFalse (fun hh => by cases hh; exact h rfl)
  | .ok _, .error _ => isFalse (fun hh => by cases hh)
  | .error _, .ok _ => isFalse (fun hh => by cases hh)

/-- findColumnIndex: linear scan of the schema by exact name, first match
wins; Go returns -1 when absent, modelled as none. -/
def findColumnIndex (table : Rec) (name : String) : Option Nat :=
  (table.fields.findIdx? (fun f => f.name = name))

/-- table.Column(i); in-range whenever the index came from
findColumnIndex on a well-formed record. -/
def columnAt (table : Rec) (i : Nat) : Col :=
  table.cols.getD i (.other "missing")

/-- table.Schema().Field(i). -/
def fieldAt (table : Rec) (i : Nat) : Field :=
  table.fields.getD i ⟨"", none, false⟩

/-! ## Per-row expression evaluation (engine.evaluateExpression) -/

/-- Substitute a sub-evaluation's value, discarding its error: models the
`left, _ := evaluateExpression(...)` pattern, where an error leaves the
value at its zero value nil. -/
def orNull : Except String Value → Value
  | .ok v => v
  | .error _ => .null

/-- engine.evaluateExpression: column lookup with null passthrough,
literals float-parsed with string fallback, binary operators over coerced
operands with sub-errors discarded, StarExpr as the "*" marker, FuncCall
rejected in row context. -/
def evaluateExpression (expr : Expression) (table : Rec) (row : Nat) : Except String Value :=
  match expr with
  | .ColumnRef name =>
    match findColumnIndex table name with
    | none => .error ("column " ++ name ++ " not found")
    | some colIdx =>
      match columnAt table colIdx with
      | .floats cells =>
        match cells.getD row none with
        | some x => .ok (.f x)
        | none => .ok .null
      | .strings cells =>
        match cells.getD row none with
        | some v => .ok (.s v)
        | none => .ok .null
      | .other tn => .error ("unsupported column type: " ++ tn)
  | .Literal v =>
    match goParseFloat v with
    | some x => .ok (.f x)
    | none => .ok (.s v)
  | .BinaryExpr l op r =>
    let left := orNull (evaluateExpression l table row)
    let right := orNull (evaluateExpression r table row)
    match op with
    | "+" => .ok (.f (toFloat left + toFloat right))
    | "-" => .ok (.f (toFloat left - toFloat right))
    | "*" => .ok (.f (toFloat left * toFloat right))
    | "/" => .ok (.f (toFloat left / toFloat right))
    | ">" => .ok (.b (decide (toFloat left > toFloat right)))
    | "<" => .ok (.b (decide (toFloat left < toFloat right)))
    | "=" => .ok (.b (goEq left right))
    | "AND" => .ok (.b (toBool left && toBool right))
    | "OR" => .ok (.b (toBool left || toBool right))
    | _ => .error ("unsupported operator: " ++ op)
  | .StarExpr => .ok (.s "*")
  | .FuncCall _ _ => .error "nested function calls not supported in row-wise projection"

/-! ## Row filtering (Step 1 of engine.ExecuteQuery) -/

/-- One row of the WHERE check: absent clause passes unconditionally; a
boolean result decides the row; a non-boolean result is the TypeError
"WHERE clause must evaluate to boolean" (no row index in the message). -/
def rowPasses (q : Query) (table : Rec) (row : Nat) : Except String Bool :=
  match q.Where with
  | none => .ok true
  | some w =>
    match evaluateExpression w table row with
    | .error e => .error e
    | .ok v =>
      match v with
      | .b result => .ok result
      | _ => .error "WHERE clause must evaluate to boolean"

/-- Decidable form of a surviving row, for relating the filter loop to
List.filter. -/
def passOk (q : Query) (table : Rec) (row : Nat) : Bool :=
  match rowPasses q table row with
  | .ok true => true
  | _ => false

/-- The filtering loop over a list of row indices, aborting at the first
error, collecting the indices whose WHERE check is true. -/
def filterLoop (q : Query) (table : Rec) : List Nat → Except String (List Nat)
  | [] => .ok []
  | row :: rest =>
    match rowPasses q table row with
    | .error e => .error e
    | .ok pass =>
      match filterLoop q table rest with
      | .error e => .error e
      | .ok t => .ok (if pass then row :: t else t)

/-- Step 1 of ExecuteQuery: rows 0..N-1 in order through the WHERE check. -/
def filterRows (q : Query) (table : Rec) : Except String (List Nat) :=
  filterLoop q table (List.range table.numRows)

/-! ## Aggregates (engine.executeAggregates / evalAggregateFunction) -/

/-- Is a projection a FuncCall (the all-aggregate test). -/
def isFuncCall : Expression → Bool
  | .FuncCall _ _ => true
  | _ => false

/-- COUNT(expr): how many of the rows evaluate to a non-null value. -/
def countNonNull (arg : Expression) (table : Rec) : List Nat → Except String Nat
  | [] => .ok 0
  | row :: rest =>
    match evaluateExpression arg table row with
    | .error e => .error e
    | .ok v =>
      match countNonNull arg table rest with
      | .error e => .error e
      | .ok c => .ok (if v = .null then c else c + 1)

/-- The gather phase of SUM/AVG/MAX/MIN: float-coerced values of the
argument over the rows where it is non-null, in row order. -/
def gatherNums (arg : Expression) (table : Rec) : List Nat → Except String (List ℚ)
  | [] => .ok []
  | row :: rest =>
    match evaluateExpression arg table row with
    | .error e => .error e
    | .ok v =>
      match gatherNums arg table rest with
      | .error e => .error e
      | .ok nums => .ok (match v with | .null => nums | _ => toFloat v :: nums)

/-- Go's sum reduction. -/
def sumList (l : List ℚ) : ℚ := l.foldl (· + ·) 0

/-- engine.evalAggregateFunction.  COUNT with any arity other than one
falls through to the bottom "unsupported aggregate function" error (which
uses the original-case name); SUM/AVG/MAX/MIN demand one argument (error
named with the uppercased name) and reduce the gathered values, yielding 0
on an empty gather. -/
def evalAggregateFunction (fname : String) (args : List Expression) (table : Rec)
    (indices : List Nat) : Except String ℚ :=
  let name := strToUpper fname
  if name = "COUNT" then
    match args with
    | [a] =>
      match a with
      | .StarExpr => .ok (indices.length : ℚ)
      | _ =>
        match countNonNull a table indices with
        | .error e => .error e
        | .ok count => .ok (count : ℚ)
    | _ => .error ("unsupported aggregate function: " ++ fname)
  else if name = "SUM" ∨ name = "AVG" ∨ name = "MAX" ∨ name = "MIN" then
    match args with
    | [a] =>
      match gatherNums a table indices with
      | .error e => .error e
      | .ok nums =>
        if name = "SUM" then .ok (sumList nums)
        else if name = "AVG" then
          match nums with
          | [] => .ok 0
          | _ => .ok (sumList nums / (nums.length : ℚ))
        else if name = "MAX" then
          match nums with
          | [] => .ok 0
          | n :: t => .ok (t.foldl (fun m v => if v > m then v else m) n)
        else
          match nums with
          | [] => .ok 0
          | n :: t => .ok (t.foldl (fun m v => if v < m then v else m) n)
    | _ => .error (name ++ " expects one argument")
  else .error ("unsupported aggregate function: " ++ fname)

/-- The projection loop of engine.executeAggregates: every projection must
be a FuncCall; collects fields expr_i (non-nullable float) and values. -/
def aggLoop (table : Rec) (indices : List Nat) :
    List Expression → Nat → Except String (List Field × List ℚ)
  | [], _ => .ok ([], [])
  | e :: es, i =>
    match e with
    | .FuncCall name args =>
      match evalAggregateFunction name args table indices with
      | .error e => .error e
      | .ok val =>
        match aggLoop table indices es (i + 1) with
        | .error e => .error e
        | .ok (fs, vs) => .ok (⟨"expr_" ++ toString i, some .float64, false⟩ :: fs, val :: vs)
    | _ => .error "non-aggregate in aggregate-only projection"

/-- engine.executeAggregates: one output row of aggregate values. -/
def executeAggregates (exprs : List Expression) (table : Rec) (indices : List Nat) :
    Except String Rec :=
  match aggLoop table indices exprs 0 with
  | .error e => .error e
  | .ok (fields, values) => .ok ⟨fields, values.map (fun v => .floats [some v]), 1⟩

/-! ## Regular projection (Step 3 of engine.ExecuteQuery) -/

/-- Per-row evaluation of a non-ColumnRef projection over the surviving
rows: null values become null cells, others are float-coerced. -/
def projectExprCol (expr : Expression) (table : Rec) : List Nat → Except String (List (Option ℚ))
  | [] => .ok []
  | row :: rest =>
    match evaluateExpression expr table row with
    | .error e => .error e
    | .ok val =>
      match projectExprCol expr table rest with
      | .error e => .error e
      | .ok cells => .ok ((match val with | .null => none | _ => some (toFloat val)) :: cells)

/-- The projection loop of the non-aggregate, non-grouped path: a ColumnRef
passes the entire original column and its field through unchanged (the
surviving indices are NOT applied to it); any other expression builds a
fresh nullable float column named expr_i over the surviving rows. -/
def projectRegular (table : Rec) (pass : List Nat) :
    List Expression → Nat → Except String (List Col × List Field)
  | [], _ => .ok ([], [])
  | e :: es, i =>
    match e with
    | .ColumnRef name =>
      match findColumnIndex table name with
      | none => .error ("column " ++ name ++ " not found")
      | some colIdx =>
        match projectRegular table pass es (i + 1) with
        | .error err => .error err
        | .ok (cs, fs) => .ok (columnAt table colIdx :: cs, fieldAt table colIdx :: fs)
    | _ =>
      match projectExprCol e table pass with
      | .error err => .error err
      | .ok cells =>
        match projectRegular table pass es (i + 1) with
        | .error err => .error err
        | .ok (cs, fs) =>
          .ok (.floats cells :: cs, ⟨"expr_" ++ toString i, some .float64, true⟩ :: fs)

/-! ## GROUP BY (engine.executeGroupedQuery) -/

/-- groupKey.String() for one row: every GROUP BY expression evaluated at
the row, each part rendered with fmt %v, joined with "|". -/
def groupKeyParts (q : Query) (table : Rec) (row : Nat) :
    List Expression → Except String (List Value)
  | [] => .ok []
  | e :: es =>
    match evaluateExpression e table row with
    | .error err => .error err
    | .ok v =>
      match groupKeyParts q table row es with
      | .error err => .error err
      | .ok vs => .ok (v :: vs)

/-- The canonical GroupKey string of a row. -/
def groupKeyOf (q : Query) (table : Rec) (row : Nat) : Except String String :=
  match groupKeyParts q table row q.GroupBy with
  | .error err => .error err
  | .ok parts => .ok (String.intercalate "|" (parts.map goFormat))

/-- groupMap[gkey] = append(groupMap[gkey], row): append the row to the
bucket of its key, creating the bucket at the end on first sight.  Keyed
association list standing in for the (order-irrelevant, later sorted)
Go map. -/
def addToBucket (k : String) (row : Nat) : List (String × List Nat) → List (String × List Nat)
  | [] => [(k, [row])]
  | (k', rows) :: rest =>
    if k' = k then (k', rows ++ [row]) :: rest
    else (k', rows) :: addToBucket k row rest

/-- Lookup of a bucket by key (first match). -/
def assocLookup (l : List (String × List Nat)) (k : String) : Option (List Nat) :=
  match l with
  | [] => none
  | (k', rows) :: rest => if k' = k then some rows else assocLookup rest k

/-- The grouping phase: bucket every filtered row by its canonical key. -/
def buildGroups (q : Query) (table : Rec) :
    List Nat → List (String × List Nat) → Except String (List (String × List Nat))
  | [], acc => .ok acc
  | row :: rest, acc =>
    match groupKeyOf q table row with
    | .error err => .error err
    | .ok k => buildGroups q table rest (addToBucket k row acc)

/-- Go string comparison `a <= b`: lexicographic on the character
sequences (byte order in Go, code-point order here; identical for valid
UTF-8, which preserves code-point order byte-wise). -/
def charListLe : List Char → List Char → Bool
  | [], _ => true
  | _ :: _, [] => false
  | a :: as, b :: bs =>
    if a.toNat < b.toNat then true
    else if b.toNat < a.toNat then false
    else charListLe as bs

def strLe (a b : String) : Bool := charListLe a.data b.data

/-- Sorted insertion under strLe. -/
def insertSorted (x : String) : List String → List String
  | [] => [x]
  | y :: ys => if strLe x y then x :: y :: ys else y :: insertSorted x ys

/-- sort.Strings: ascending lexicographic sort.  Modelled by insertion
sort; on the distinct keys of the group map the ascending sorted
permutation is unique, so this is the list Go produces. -/
def sortStrings : List String → List String
  | [] => []
  | x :: xs => insertSorted x (sortStrings xs)

/-- Does a row's canonical group key equal k (false when key evaluation
errors)?  Decidable bucket-membership predicate. -/
def keyIs (q : Query) (table : Rec) (r : Nat) (k : String) : Bool :=
  match groupKeyOf q table r with
  | .ok kr => decide (kr = k)
  | .error _ => false

/-- An output column under construction (array.StringBuilder /
array.Float64Builder). -/
inductive Builder where
  | str (cells : List (Option String))
  | flt (cells : List (Option ℚ))
  deriving DecidableEq, Repr

/-- A finished builder as a column. -/
def Builder.finish : Builder → Col
  | .str cells => .strings cells
  | .flt cells => .floats cells

/-- The Go type string %T would print for an AST node, used in the
engine's default-branch error messages. -/
def exprGoType : Expression → String
  | .ColumnRef _ => "*queryparser.ColumnRef"
  | .Literal _ => "*queryparser.Literal"
  | .BinaryExpr _ _ _ => "*queryparser.BinaryExpr"
  | .FuncCall _ _ => "*queryparser.FuncCall"
  | .StarExpr => "*queryparser.StarExpr"

/-- Builder allocation for one projection: a ColumnRef gets a builder of
its column's type (STRING or FLOAT64, anything else is an error), a
FuncCall a float builder, any other projection shape is an error. -/
def initBuilder (table : Rec) (e : Expression) : Except String Builder :=
  match e with
  | .ColumnRef name =>
    match findColumnIndex table name with
    | none => .error ("column " ++ name ++ " not found")
    | some colIdx =>
      match columnAt table colIdx with
      | .strings _ => .ok (.str [])
      | .floats _ => .ok (.flt [])
      | .other tn => .error ("unsupported data type in GROUP BY: " ++ tn)
  | .FuncCall _ _ => .ok (Builder.flt [])
  | _ => .error ("unsupported expression type in GROUP BY projections: " ++ exprGoType e)

/-- The builder-allocation loop over the projections. -/
def initBuilders (table : Rec) : List Expression → Except String (List Builder)
  | [] => .ok []
  | e :: es =>
    match initBuilder table e with
    | .error err => .error err
    | .ok b =>
      match initBuilders table es with
      | .error err => .error err
      | .ok bs => .ok (b :: bs)

/-- One projection of one group's output row: a ColumnRef takes the value
of the group's FIRST row (sub-evaluation error discarded to nil) and
appends it to its builder — a string builder does the unchecked Go type
assertion val.(string), which PANICS when the value is the nil interface;
a FuncCall aggregates over the group's rows and appends to what it
asserts is a float builder. -/
def projStep (table : Rec) (rows : List Nat) (i : Nat) (expr : Expression)
    (builders : List Builder) (fields : List Field) : ERes (List Builder × List Field) :=
  match expr with
  | .ColumnRef name =>
    match rows with
    | [] => .panic "runtime error: index out of range [0] with length 0"
    | r0 :: _ =>
      let val := orNull (evaluateExpression (.ColumnRef name) table r0)
      match findColumnIndex table name with
      | none => .panic "runtime error: index out of range [-1]"
      | some colIdx =>
        let colType : Option CType :=
          match columnAt table colIdx with
          | .floats _ => some .float64
          | .strings _ => some .utf8
          | .other _ => none
        let fields' := fields.set i ⟨name, colType, false⟩
        match builders.getD i (.flt []) with
        | .str cells =>
          match val with
          | .s sv => .ok (builders.set i (.str (cells ++ [some sv])), fields')
          | .null => .panic "interface conversion: interface {} is nil, not string"
          | .f _ => .panic "interface conversion: interface {} is float64, not string"
          | .b _ => .panic "interface conversion: interface {} is bool, not string"
        | .flt cells =>
          .ok (builders.set i (.flt (cells ++ [some (toFloat val)])), fields')
  | .FuncCall name args =>
    match evalAggregateFunction name args table rows with
    | .error e => .err e
    | .ok val =>
      let fields' := fields.set i ⟨strToUpper name, some .float64, false⟩
      match builders.getD i (.flt []) with
      | .flt cells => .ok (builders.set i (.flt (cells ++ [some val])), fields')
      | .str _ =>
        .panic "interface conversion: array.Builder is *array.StringBuilder, not *array.Float64Builder"
  | _ => .err ("unsupported projection type in GROUP BY: " ++ exprGoType expr)

/-- All projections of one group's output row, left to right. -/
def projRow (table : Rec) (rows : List Nat) :
    List Expression → Nat → List Builder → List Field → ERes (List Builder × List Field)
  | [], _, builders, fields => .ok (builders, fields)
  | e :: es, i, builders, fields =>
    match projStep table rows i e builders fields with
    | .err m => .err m
    | .panic m => .panic m
    | .ok (builders', fields') => projRow table rows es (i + 1) builders' fields'

/-- The per-group loop over the sorted keys. -/
def groupLoop (q : Query) (table : Rec) (bkts : List (String × List Nat)) :
    List String → List Builder → List Field → ERes (List Builder × List Field)
  | [], builders, fields => .ok (builders, fields)
  | gkey :: ks, builders, fields =>
    let rows := (assocLookup bkts gkey).getD []
    match projRow table rows q.Projections 0 builders fields with
    | .err m => .err m
    | .panic m => .panic m
    | .ok (builders', fields') => groupLoop q table bkts ks builders' fields'

/-- engine.executeGroupedQuery: bucket the filtered rows by canonical key,
sort the distinct keys, allocate typed builders, then emit one output row
per key in sorted order. -/
def executeGroupedQuery (q : Query) (table : Rec) (indices : List Nat) : ERes Rec :=
  match buildGroups q table indices [] with
  | .error e => .err e
  | .ok bkts =>
    let groupKeys := sortStrings (bkts.map Prod.fst)
    match initBuilders table q.Projections with
    | .error e => .err e
    | .ok builders =>
      let fields0 := q.Projections.map (fun _ => (⟨"", none, false⟩ : Field))
      match groupLoop q table bkts groupKeys builders fields0 with
      | .err m => .err m
      | .panic m => .panic m
      | .ok (builders', fields') =>
        .ok ⟨fields', builders'.map Builder.finish, groupKeys.length⟩

/-! ## engine.ExecuteQuery (the current executor) -/

/-- engine.ExecuteQuery: filter, then dispatch — all-FuncCall projections
to the aggregate path (checked before GROUP BY), a non-empty GroupBy to
the grouped path, and otherwise the regular projection path, whose output
record claims len(passIndices) rows. -/
def ExecuteQuery (q : Query) (table : Rec) : ERes Rec :=
  match filterRows q table with
  | .error e => .err e
  | .ok passIndices =>
    if q.Projections.all isFuncCall then
      match executeAggregates q.Projections table passIndices with
      | .error e => .err e
      | .ok rec => .ok rec
    else if q.GroupBy.length > 0 then
      executeGroupedQuery q table passIndices
    else
      match projectRegular table passIndices q.Projections 0 with
      | .error e => .err e
      | .ok (cols, fields) => .ok ⟨fields, cols, passIndices.length⟩

/-! ## Lemmas about the string order and the sort -/

theorem charListLe_cons (a b : Char) (as bs : List Char) :
    charListLe (a :: as) (b :: bs) =
      if a.toNat < b.toNat then true
      else if b.toNat < a.toNat then false
      else charListLe as bs := rfl

theorem charListLe_total (a b : List Char) : charListLe a b = true ∨ charListLe b a = true := by
  induction a generalizing b with
  | nil => left; rfl
  | cons x xs ih =>
    cases b with
    | nil => right; rfl
    | cons y ys =>
      rw [charListLe_cons, charListLe_cons]
      rcases Nat.lt_trichotomy x.toNat y.toNat with h | h | h
      · left; simp [h]
      · rcases ih ys with h2 | h2
        · left; simp [h, h2]
        · right; simp [h, h2]
      · right; simp [h]

theorem charListLe_trans {a b c : List Char} (hab : charListLe a b = true)
    (hbc : charListLe b c = true) : charListLe a c = true := by
  induction a generalizing b c with
  | nil => rfl
  | cons x xs ih =>
    cases b with
    | nil => simp [charListLe] at hab
    | cons y ys =>
      cases c with
      | nil => simp [charListLe] at hbc
      | cons z zs =>
        rw [charListLe_cons] at hab hbc ⊢
        rcases Nat.lt_trichotomy x.toNat y.toNat with h1 | h1 | h1
        · rcases Nat.lt_trichotomy y.toNat z.toNat with h2 | h2 | h2
          · have : x.toNat < z.toNat := Nat.lt_trans h1 h2
            simp [this]
          · have : x.toNat < z.toNat := h2 ▸ h1
            simp [this]
          · have hy : ¬ y.toNat < z.toNat := by omega
            have hz : z.toNat < y.toNat := h2
            simp [hy, hz] at hbc
        · rcases Nat.lt_trichotomy y.toNat z.toNat with h2 | h2 | h2
          · have : x.toNat < z.toNat := h1 ▸ h2
            simp [this]
          · have hxz : ¬ x.toNat < z.toNat := by omega
            have hzx : ¬ z.toNat < x.toNat := by omega
            have hxy : ¬ x.toNat < y.toNat := by omega
            have hyx : ¬ y.toNat < x.toNat := by omega
            have hyz : ¬ y.toNat < z.toNat := by omega
            have hzy : ¬ z.toNat < y.toNat := by omega
            rw [if_neg hxy, if_neg hyx] at hab
            rw [if_neg hyz, if_neg hzy] at hbc
            rw [if_neg hxz, if_neg hzx]
            exact ih hab hbc
          · have hyz : ¬ y.toNat < z.toNat := by omega
            have hzy : z.toNat < y.toNat := h2
            simp [hyz, hzy] at hbc
        · have hxy : ¬ x.toNat < y.toNat := by omega
          simp [hxy, h1] at hab

theorem strLe_total (a b : String) : strLe a b = true ∨ strLe b a = true :=
  charListLe_total a.data b.data

theorem strLe_trans {a b c : String} (h1 : strLe a b = true) (h2 : strLe b c = true) :
    strLe a c = true := charListLe_trans h1 h2

theorem insertSorted_perm (x : String) (l : List String) :
    List.Perm (insertSorted x l) (x :: l) := by
  induction l with
  | nil => exact List.Perm.refl _
  | cons y ys ih =>
    by_cases h : strLe x y
    · simp [insertSorted, h]
    · simp only [insertSorted, if_neg h]
      exact List.Perm.trans (List.Perm.cons y ih) (List.Perm.swap x y ys)

theorem sortStrings_perm (l : List String) : List.Perm (sortStrings l) l := by
  induction l with
  | nil => exact List.Perm.refl _
  | cons x xs ih =>
    exact List.Perm.trans (insertSorted_perm x (sortStrings xs)) (List.Perm.cons x ih)

theorem mem_insertSorted {x z : String} {l : List String} :
    z ∈ insertSorted x l ↔ z = x ∨ z ∈ l := by
  rw [(insertSorted_perm x l).mem_iff]
  simp

theorem pairwise_insertSorted {x : String} {l : List String}
    (h : l.Pairwise (fun a b => strLe a b = true)) :
    (insertSorted x l).Pairwise (fun a b => strLe a b = true) := by
  induction l with
  | nil => simp [insertSorted]
  | cons y ys ih =>
    rcases List.pairwise_cons.mp h with ⟨hy, hys⟩
    by_cases hxy : strLe x y
    · simp only [insertSorted, if_pos hxy]
      refine List.pairwise_cons.mpr ⟨?_, h⟩
      intro z hz
      rcases List.mem_cons.mp hz with rfl | hz
      · exact hxy
      · exact strLe_trans hxy (hy z hz)
    · simp only [insertSorted, if_neg hxy]
      refine List.pairwise_cons.mpr ⟨?_, ih hys⟩
      intro z hz
      rcases mem_insertSorted.mp hz with rfl | hz
      · rcases strLe_total z y with h2 | h2
        · exact absurd h2 hxy
        · exact h2
      · exact hy z hz

theorem pairwise_sortStrings (l : List String) :
    (sortStrings l).Pairwise (fun a b => strLe a b = true) := by
  induction l with
  | nil => simp [sortStrings]
  | cons x xs ih => exact pairwise_insertSorted ih

/-! ## C1 -/

unseal Rat.add Rat.sub Rat.mul Rat.inv Rat.ofScientific in
/-- C1: in the current executor, a ColumnRef projection appends the ENTIRE
input column to the output while the record claims len(passIndices) rows.
On the table X = [1, 2] with WHERE X > 1.5 only row 1 survives, yet the
output column still holds both input values — not the values at the
surviving indices ([2]) that the claim requires.  This evaluates the code
at the failing input exhibiting the divergence. -/
theorem c1_colref_passthrough_bug :
    ExecuteQuery
      ⟨[.ColumnRef "X"], "t", some (.BinaryExpr (.ColumnRef "X") ">" (.Literal "1.5")), []⟩
      ⟨[⟨"X", some .float64, true⟩], [.floats [some 1, some 2]], 2⟩
      = .ok ⟨[⟨"X", some .float64, true⟩], [.floats [some 1, some 2]], 1⟩
    ∧ ([some (1 : ℚ), some 2] ≠ [some (2 : ℚ)]) := by
  constructor
  · decide
  · decide

/-! ## C2 -/

/-- C2: counterexample.  Parsing the claim's query succeeds, but the WHERE
tree is the single comparison Close > 1000 — the lexer has no AND keyword
(AND lexes as an identifier) and parseExpression consumes at most one
binary operator, so the root operator is ">", not "AND", and
"AND Volume < 5000" is left unconsumed. -/
theorem c2_cex :
    parseQuery "SELECT Date, Close FROM prices WHERE Close > 1000 AND Volume < 5000"
      = .ok ⟨[.ColumnRef "Date", .ColumnRef "Close"], "prices",
             some (.BinaryExpr (.ColumnRef "Close") ">" (.Literal "1000")), []⟩
            ⟨⟨.TOKEN_IDENTIFIER, "AND"⟩, (" Volume < 5000").data⟩
    ∧ (∀ a b, Expression.BinaryExpr (.ColumnRef "Close") ">" (.Literal "1000")
        ≠ .BinaryExpr a "AND" b) := by
  refine ⟨rfl, ?_⟩
  intro a b h
  injection h with h1 h2 h3
  exact absurd h2 (by decide)

/-- C2 (amended): the query parses with 2 projections (Date, Close) and
table "prices", but the WHERE expression is BinaryExpr(Close, ">", 1000)
and the trailing "AND Volume < 5000" is left unconsumed (the lookahead
sits on the identifier "AND"). -/
theorem c2_amended :
    parseQuery "SELECT Date, Close FROM prices WHERE Close > 1000 AND Volume < 5000"
      = .ok ⟨[.ColumnRef "Date", .ColumnRef "Close"], "prices",
             some (.BinaryExpr (.ColumnRef "Close") ">" (.Literal "1000")), []⟩
            ⟨⟨.TOKEN_IDENTIFIER, "AND"⟩, (" Volume < 5000").data⟩ := rfl

/-! ## C4 -/

/-- C4: counterexample.  The character '+' at a token start position is
not lexed as a token: the lexer panics on it. -/
theorem c4_cex : NextToken ['+'] = .panic "unexpected character: +" := rfl

/-- C4 (amended): only '>', '<', '=' (operator kind) and ',' (comma kind)
are single-character tokens of their own kind; the characters
'+', '-', '*', '/', '(', ')' are unrecognized and make the lexer panic. -/
theorem c4_amended :
    (∀ rest, NextToken ('>' :: rest) = .ok ⟨.TOKEN_OPERATOR, ">"⟩ rest)
    ∧ (∀ rest, NextToken ('<' :: rest) = .ok ⟨.TOKEN_OPERATOR, "<"⟩ rest)
    ∧ (∀ rest, NextToken ('=' :: rest) = .ok ⟨.TOKEN_OPERATOR, "="⟩ rest)
    ∧ (∀ rest, NextToken (',' :: rest) = .ok ⟨.TOKEN_COMMA, ","⟩ rest)
    ∧ (∀ rest, NextToken ('+' :: rest) = .panic "unexpected character: +")
    ∧ (∀ rest, NextToken ('-' :: rest) = .panic "unexpected character: -")
    ∧ (∀ rest, NextToken ('*' :: rest) = .panic "unexpected character: *")
    ∧ (∀ rest, NextToken ('/' :: rest) = .panic "unexpected character: /")
    ∧ (∀ rest, NextToken ('(' :: rest) = .panic "unexpected character: (")
    ∧ (∀ rest, NextToken (')' :: rest) = .panic "unexpected character: )") :=
  ⟨fun _ => rfl, fun _ => rfl, fun _ => rfl, fun _ => rfl, fun _ => rfl,
   fun _ => rfl, fun _ => rfl, fun _ => rfl, fun _ => rfl, fun _ => rfl⟩

/-! ## C5 -/

/-- C5: counterexample.  A well-formed query followed by a trailing
identifier parses successfully — the parser returns after the optional
WHERE clause with the garbage token still in the lookahead, instead of
failing. -/
theorem c5_cex :
    ∃ q st, parseQuery "SELECT a FROM t junk" = .ok q st
      ∧ st.curr.type ≠ .TOKEN_EOF :=
  ⟨⟨[.ColumnRef "a"], "t", none, []⟩, ⟨⟨.TOKEN_IDENTIFIER, "junk"⟩, []⟩, rfl, by decide⟩

/-- C5 (amended): Parse does not consume the whole lexer stream — it
returns right after the optional WHERE clause.  "SELECT a FROM t junk"
parses successfully to the same Query as "SELECT a FROM t", with the
trailing identifier "junk" left unconsumed in the lookahead. -/
theorem c5_amended :
    parseQuery "SELECT a FROM t junk"
      = .ok ⟨[.ColumnRef "a"], "t", none, []⟩ ⟨⟨.TOKEN_IDENTIFIER, "junk"⟩, []⟩
    ∧ parseQuery "SELECT a FROM t"
      = .ok ⟨[.ColumnRef "a"], "t", none, []⟩ ⟨⟨.TOKEN_EOF, ""⟩, []⟩ := ⟨rfl, rfl⟩

/-! ## C9 -/

theorem goEq_false_of_vtag_ne {v w : Value} (h : vtag v ≠ vtag w) : goEq v w = false := by
  cases v <;> cases w <;> first
    | exact absurd rfl h
    | rfl

/-- C9: evaluating BinaryExpr with operator "=" compares the operand
values with Go == and no coercion: whenever the operands evaluate to
values of different dynamic types, the result is boolean false. -/
theorem c9_equality_no_coercion (l r : Expression) (table : Rec) (row : Nat)
    (vl vr : Value)
    (hl : evaluateExpression l table row = .ok vl)
    (hr : evaluateExpression r table row = .ok vr)
    (hty : vtag vl ≠ vtag vr) :
    evaluateExpression (.BinaryExpr l "=" r) table row = .ok (.b false) := by
  have h1 : orNull (evaluateExpression l table row) = vl := by rw [hl]; rfl
  have h2 : orNull (evaluateExpression r table row) = vr := by rw [hr]; rfl
  show (let left := orNull (evaluateExpression l table row)
        let right := orNull (evaluateExpression r table row)
        Except.ok (Value.b (goEq left right))) = _
  rw [h1, h2]
  show Except.ok (Value.b (goEq vl vr)) = _
  rw [goEq_false_of_vtag_ne hty]

unseal Rat.add Rat.sub Rat.mul Rat.inv Rat.ofScientific in
/-- C9 witness: the float 5 (a numeric-looking literal always evaluates
numeric) compared with the string "5" read from a string column is false. -/
theorem c9_witness :
    evaluateExpression (.BinaryExpr (.Literal "5") "=" (.ColumnRef "S"))
      ⟨[⟨"S", some .utf8, true⟩], [.strings [some "5"]], 1⟩ 0 = .ok (.b false) :=
  c9_equality_no_coercion (.Literal "5") (.ColumnRef "S") _ 0 (.f 5) (.s "5")
    (by decide) rfl (by decide)

/-! ## C3 -/

/-- C3: counterexample.  Lexing the character '@' does not produce a
LexError error value — the lexer panics; and a token-kind mismatch in eat
does not produce a ParseError error value — it panics.  There is no error
channel at all in this parser: every failure is a panic. -/
theorem c3_cex :
    NextToken ['@'] = .panic "unexpected character: @"
    ∧ eat ⟨⟨.TOKEN_IDENTIFIER, "x"⟩, []⟩ .TOKEN_SELECT = .panic "unexpected token: x" :=
  ⟨rfl, rfl⟩

/-- C3 (amended): an unrecognized character makes the lexer PANIC with
message "unexpected character: <c>" (not a returned LexError value), and
a token-kind mismatch makes eat PANIC with "unexpected token: <text>"
(not a returned ParseError value). -/
theorem c3_amended :
    (∀ (c : Char) (rest : List Char),
      isSpace c = false → isLetter c = false → isDigit c = false →
      c ≠ '.' → c ≠ '>' → c ≠ '<' → c ≠ '=' → c ≠ ',' →
      NextToken (c :: rest) = .panic ("unexpected character: " ++ String.mk [c]))
    ∧ (∀ (st : PState) (t : TokenType), st.curr.type ≠ t →
      eat st t = .panic ("unexpected token: " ++ st.curr.literal)) := by
  constructor
  · intro c rest h1 h2 h3 h4 h5 h6 h7 h8
    simp [NextToken, List.dropWhile_cons, h1, h2, h3, h4, h5, h6, h7, h8]
  · intro st t h
    simp [eat, h]

/-- C3 witness (instantiation of both panic shapes at concrete inputs). -/
theorem c3_witness :
    NextToken ['#'] = .panic ("unexpected character: " ++ String.mk ['#'])
    ∧ eat ⟨⟨.TOKEN_LITERAL, "7"⟩, []⟩ .TOKEN_FROM = .panic ("unexpected token: " ++ "7") :=
  ⟨c3_amended.1 '#' [] (by decide) (by decide) (by decide) (by decide) (by decide)
      (by decide) (by decide) (by decide),
   c3_amended.2 ⟨⟨.TOKEN_LITERAL, "7"⟩, []⟩ .TOKEN_FROM (by decide)⟩

/-! ## C6 -/

theorem rowPasses_none {q : Query} (h : q.Where = none) (table : Rec) (row : Nat) :
    rowPasses q table row = .ok true := by
  simp [rowPasses, h]

theorem filterLoop_none {q : Query} {table : Rec} (h : q.Where = none) :
    ∀ rows, filterLoop q table rows = .ok rows := by
  intro rows
  induction rows with
  | nil => rfl
  | cons r rs ih => simp [filterLoop, rowPasses_none h, ih]

theorem passOk_true_iff {q : Query} {table : Rec} {r : Nat} :
    passOk q table r = true ↔ rowPasses q table r = .ok true := by
  unfold passOk
  cases hr : rowPasses q table r with
  | error e => simp
  | ok p => cases p <;> simp

theorem filterLoop_ok_eq {q : Query} {table : Rec} :
    ∀ {rows out}, filterLoop q table rows = .ok out →
      out = rows.filter (fun r => passOk q table r) := by
  intro rows
  induction rows with
  | nil => intro out h; cases h; rfl
  | cons r rs ih =>
    intro out h
    unfold filterLoop at h
    cases hr : rowPasses q table r with
    | error e => rw [hr] at h; cases h
    | ok p =>
      rw [hr] at h
      cases hl : filterLoop q table rs with
      | error e => rw [hl] at h; cases h
      | ok t =>
        rw [hl] at h
        cases h
        have ht := ih hl
        have hp : passOk q table r = p := by unfold passOk; rw [hr]; cases p <;> rfl
        cases p <;> simp [List.filter_cons, hp, ht]

/-- C6 (amended): with no WHERE clause every row index 0..N-1 survives;
a successful filter returns exactly the rows whose WHERE check is the
boolean true, as a strictly increasing subsequence of 0..N-1; a row whose
WHERE expression evaluates to a non-boolean value produces the TypeError
"WHERE clause must evaluate to boolean" — a fixed message that does NOT
identify the row; and a filter error aborts ExecuteQuery with it. -/
theorem c6_filter_semantics (q : Query) (table : Rec) :
    (q.Where = none → filterRows q table = .ok (List.range table.numRows))
    ∧ (∀ idx, filterRows q table = .ok idx →
        idx = (List.range table.numRows).filter (fun r => passOk q table r)
        ∧ idx.Pairwise (· < ·)
        ∧ (∀ r, r ∈ idx ↔ r ∈ List.range table.numRows ∧ rowPasses q table r = .ok true))
    ∧ (∀ w row v, q.Where = some w → evaluateExpression w table row = .ok v →
        (∀ bv, v ≠ .b bv) →
        rowPasses q table row = .error "WHERE clause must evaluate to boolean")
    ∧ (∀ e, filterRows q table = .error e → ExecuteQuery q table = .err e) := by
  refine ⟨?_, ?_, ?_, ?_⟩
  · intro h
    exact filterLoop_none h _
  · intro idx h
    have he := filterLoop_ok_eq h
    refine ⟨he, ?_, ?_⟩
    · rw [he]
      exact (List.pairwise_lt_range _).filter _
    · intro r
      rw [he, List.mem_filter, passOk_true_iff]
  · intro w row v hw hv hnb
    cases v with
    | b bv => exact absurd rfl (hnb bv)
    | f x => simp [rowPasses, hw, hv]
    | s sv => simp [rowPasses, hw, hv]
    | null => simp [rowPasses, hw, hv]
  · intro e h
    unfold ExecuteQuery
    rw [h]

unseal Rat.add Rat.sub Rat.mul Rat.inv Rat.ofScientific in
/-- C6: counterexample to "a TypeError identifying the row".  The error
value produced for a non-boolean WHERE result is the fixed message
"WHERE clause must evaluate to boolean": it carries no digit at all, so
it cannot identify the failing row. -/
theorem c6_cex :
    filterRows ⟨[.ColumnRef "X"], "t", some (.Literal "1"), []⟩
        ⟨[⟨"X", some .float64, true⟩], [.floats [some 1, some 2]], 2⟩
      = .error "WHERE clause must evaluate to boolean"
    ∧ ("WHERE clause must evaluate to boolean".data.all (fun ch => !ch.isDigit)) = true :=
  ⟨by decide, by decide⟩

unseal Rat.add Rat.sub Rat.mul Rat.inv Rat.ofScientific in
/-- C6 witness (instantiation): a WHERE-less filter over a 2-row table
and a TypeError from a float-valued WHERE expression. -/
theorem c6_witness :
    filterRows ⟨[.ColumnRef "X"], "t", none, []⟩
        ⟨[⟨"X", some .float64, true⟩], [.floats [some 1, some 2]], 2⟩ = .ok [0, 1]
    ∧ rowPasses ⟨[.ColumnRef "X"], "t", some (.Literal "1"), []⟩
        ⟨[⟨"X", some .float64, true⟩], [.floats [some 1, some 2]], 2⟩ 0
      = .error "WHERE clause must evaluate to boolean" :=
  ⟨(c6_filter_semantics _ _).1 rfl,
   (c6_filter_semantics _ _).2.2.1 (.Literal "1") 0 (.f 1) rfl (by decide)
     (by intro bv h; cases h)⟩

/-! ## C8 -/

theorem gatherNums_all_null {arg : Expression} {table : Rec} :
    ∀ {rows}, (∀ r ∈ rows, evaluateExpression arg table r = .ok .null) →
      gatherNums arg table rows = .ok [] := by
  intro rows h
  induction rows with
  | nil => rfl
  | cons r rs ih =>
    have h0 : evaluateExpression arg table r = .ok .null := h r (List.mem_cons_self r rs)
    have hrest := ih (fun x hx => h x (List.mem_cons_of_mem r hx))
    simp [gatherNums, h0, hrest]

theorem executeAggregates_numRows {exprs : List Expression} {table : Rec} {idx : List Nat}
    {rec : Rec} (h : executeAggregates exprs table idx = .ok rec) : rec.numRows = 1 := by
  unfold executeAggregates at h
  cases ha : aggLoop table idx exprs 0 with
  | error e => rw [ha] at h; cases h
  | ok p => rw [ha] at h; cases h; rfl

/-- C8: when every projection is a FuncCall and GroupBy is empty the
output record has exactly one row; COUNT(*) is the number of filtered
rows; and each of SUM, AVG, MAX, MIN over zero non-null gathered values
yields 0 (in particular over an empty row set), not null and not an
error. -/
theorem c8_aggregate_path (q : Query) (table : Rec) (rec : Rec)
    (hAll : q.Projections.all isFuncCall = true)
    (hG : q.GroupBy = [])
    (hOk : ExecuteQuery q table = .ok rec) :
    rec.numRows = 1
    ∧ (∀ (t2 : Rec) (idx : List Nat),
        evalAggregateFunction "COUNT" [.StarExpr] t2 idx = .ok (idx.length : ℚ))
    ∧ (∀ fn, fn ∈ ["SUM", "AVG", "MAX", "MIN"] →
        ∀ (arg : Expression) (t2 : Rec) (idx : List Nat),
        (∀ r ∈ idx, evaluateExpression arg t2 r = .ok .null) →
        evalAggregateFunction fn [arg] t2 idx = .ok 0) := by
  refine ⟨?_, ?_, ?_⟩
  · unfold ExecuteQuery at hOk
    split at hOk
    · exact absurd hOk (by simp)
    · rw [if_pos hAll] at hOk
      split at hOk
      · exact absurd hOk (by simp)
      · rename_i r ha
        cases hOk
        exact executeAggregates_numRows ha
  · intro t2 idx
    rfl
  · intro fn hfn arg t2 idx hnull
    have hg := gatherNums_all_null hnull
    simp only [List.mem_cons, List.mem_singleton] at hfn
    rcases hfn with rfl | rfl | rfl | rfl | h
    · simp [evalAggregateFunction, strToUpper, hg, sumList]
    · simp [evalAggregateFunction, strToUpper, hg]
    · simp [evalAggregateFunction, strToUpper, hg]
    · simp [evalAggregateFunction, strToUpper, hg]
    · cases h

unseal Rat.add Rat.sub Rat.mul Rat.inv Rat.ofScientific in
/-- C8 witness (instantiation): SELECT SUM(X), COUNT(*) over a zero-row
table yields a one-row record with SUM = 0 and COUNT = 0. -/
theorem c8_witness :
    (⟨[⟨"expr_0", some .float64, false⟩, ⟨"expr_1", some .float64, false⟩],
      [.floats [some 0], .floats [some 0]], 1⟩ : Rec).numRows = 1
    ∧ evalAggregateFunction "SUM" [.ColumnRef "X"]
        ⟨[⟨"X", some .float64, true⟩], [.floats []], 0⟩ [] = .ok 0 :=
  ⟨(c8_aggregate_path
      ⟨[.FuncCall "SUM" [.ColumnRef "X"], .FuncCall "COUNT" [.StarExpr]], "t", none, []⟩
      ⟨[⟨"X", some .float64, true⟩], [.floats []], 0⟩
      ⟨[⟨"expr_0", some .float64, false⟩, ⟨"expr_1", some .float64, false⟩],
        [.floats [some 0], .floats [some 0]], 1⟩
      rfl rfl (by decide)).1,
   (c8_aggregate_path
      ⟨[.FuncCall "SUM" [.ColumnRef "X"], .FuncCall "COUNT" [.StarExpr]], "t", none, []⟩
      ⟨[⟨"X", some .float64, true⟩], [.floats []], 0⟩
      ⟨[⟨"expr_0", some .float64, false⟩, ⟨"expr_1", some .float64, false⟩],
        [.floats [some 0], .floats [some 0]], 1⟩
      rfl rfl (by decide)).2.2 "SUM" (by simp) (.ColumnRef "X")
      ⟨[⟨"X", some .float64, true⟩], [.floats []], 0⟩ []
      (fun r hr => absurd hr (List.not_mem_nil r))⟩

/-! ## Lemmas about the group map (buckets) -/

theorem assocLookup_addToBucket (k kq : String) (row : Nat) (l : List (String × List Nat)) :
    assocLookup (addToBucket k row l) kq =
      if kq = k then some ((assocLookup l k).getD [] ++ [row]) else assocLookup l kq := by
  induction l with
  | nil =>
    by_cases h : kq = k
    · subst h; simp [addToBucket, assocLookup]
    · have h' : ¬ k = kq := Ne.symm h
      simp [addToBucket, assocLookup, h, h']
  | cons p rest ih =>
    obtain ⟨k1, rows1⟩ := p
    by_cases h1 : k1 = k
    · subst h1
      by_cases h2 : kq = k1
      · subst h2; simp [addToBucket, assocLookup]
      · have h2' : ¬ k1 = kq := Ne.symm h2
        simp [addToBucket, assocLookup, h2, h2']
    · by_cases h2 : kq = k1
      · subst h2
        have h1' : ¬ kq = k := fun hh => h1 (hh ▸ rfl)
        simp [addToBucket, assocLookup, h1, h1']
      · have h2' : ¬ k1 = kq := Ne.symm h2
        by_cases h3 : kq = k
        · subst h3
          simp only [addToBucket, if_neg h1, assocLookup, if_neg h2', ih, if_pos rfl]
        · simp only [addToBucket, if_neg h1, assocLookup, if_neg h2', ih, if_neg h3]

theorem addToBucket_keys (k : String) (row : Nat) (l : List (String × List Nat)) :
    (addToBucket k row l).map Prod.fst =
      if k ∈ l.map Prod.fst then l.map Prod.fst else l.map Prod.fst ++ [k] := by
  induction l with
  | nil => simp [addToBucket]
  | cons p rest ih =>
    obtain ⟨k1, rows1⟩ := p
    by_cases h1 : k1 = k
    · subst h1; simp [addToBucket]
    · have h1' : ¬ k = k1 := Ne.symm h1
      have hmem : k ∈ ((k1, rows1) :: rest).map Prod.fst ↔ k ∈ rest.map Prod.fst := by
        simp [h1']
      by_cases h2 : k ∈ rest.map Prod.fst
      · simp [addToBucket, h1, h1', ih, h2, hmem]
      · simp [addToBucket, h1, h1', ih, h2, hmem]

theorem addToBucket_nonempty {k : String} {row : Nat} {l : List (String × List Nat)}
    (h : ∀ p ∈ l, p.2 ≠ []) : ∀ p ∈ addToBucket k row l, p.2 ≠ [] := by
  induction l with
  | nil =>
    intro p hp
    simp only [addToBucket, List.mem_singleton] at hp
    rw [hp]
    simp
  | cons hd rest ih =>
    obtain ⟨k1, rows1⟩ := hd
    by_cases h1 : k1 = k
    · intro p hp
      simp only [addToBucket, if_pos h1, List.mem_cons] at hp
      rcases hp with hp | hp
      · rw [hp]
        simp
      · exact h p (List.mem_cons_of_mem _ hp)
    · intro p hp
      simp only [addToBucket, if_neg h1, List.mem_cons] at hp
      rcases hp with hp | hp
      · rw [hp]
        exact h _ (List.mem_cons_self _ _)
      · exact ih (fun x hx => h x (List.mem_cons_of_mem _ hx)) p hp

theorem assocLookup_isSome_iff {l : List (String × List Nat)} {k : String} :
    (assocLookup l k).isSome ↔ k ∈ l.map Prod.fst := by
  induction l with
  | nil => simp [assocLookup]
  | cons p rest ih =>
    obtain ⟨k1, rows1⟩ := p
    by_cases h : k1 = k
    · subst h; simp [assocLookup]
    · have h' : ¬ k = k1 := Ne.symm h
      rw [assocLookup, if_neg h]
      rw [ih]
      simp [h']

theorem assocLookup_eq_some_mem {l : List (String × List Nat)} {k : String} {rows : List Nat}
    (h : assocLookup l k = some rows) : (k, rows) ∈ l := by
  induction l with
  | nil => cases h
  | cons p rest ih =>
    obtain ⟨k1, rows1⟩ := p
    by_cases h1 : k1 = k
    · subst h1
      rw [assocLookup, if_pos rfl] at h
      cases h
      exact List.mem_cons_self _ _
    · rw [assocLookup, if_neg h1] at h
      exact List.mem_cons_of_mem _ (ih h)

theorem mem_assocLookup_of_nodup {l : List (String × List Nat)}
    (hnd : (l.map Prod.fst).Nodup) {k : String} {rows : List Nat}
    (h : (k, rows) ∈ l) : assocLookup l k = some rows := by
  induction l with
  | nil => cases h
  | cons p rest ih =>
    obtain ⟨k1, rows1⟩ := p
    rcases List.mem_cons.mp h with heq | hmem
    · cases heq
      rw [assocLookup, if_pos rfl]
    · have hk : k ∈ rest.map Prod.fst := by
        exact List.mem_map_of_mem Prod.fst hmem
      have h1 : k1 ≠ k := by
        intro hh
        subst hh
        exact (List.nodup_cons.mp hnd).1 hk
      rw [assocLookup, if_neg h1]
      exact ih (List.nodup_cons.mp hnd).2 hmem

theorem buildGroups_lookup {q : Query} {table : Rec} :
    ∀ {idx acc bkts}, buildGroups q table idx acc = .ok bkts →
      ∀ k, (assocLookup bkts k).getD [] =
        (assocLookup acc k).getD [] ++ idx.filter (fun r => keyIs q table r k) := by
  intro idx
  induction idx with
  | nil =>
    intro acc bkts h k
    cases h
    simp
  | cons r rs ih =>
    intro acc bkts h k
    unfold buildGroups at h
    cases hk : groupKeyOf q table r with
    | error e => rw [hk] at h; cases h
    | ok k0 =>
      rw [hk] at h
      have hmain := ih h k
      rw [hmain, assocLookup_addToBucket]
      by_cases hkk : k = k0
      · subst hkk
        have hkey : keyIs q table r k = true := by simp [keyIs, hk]
        simp [List.filter_cons, hkey]
      · have hkey : keyIs q table r k = false := by
          simp [keyIs, hk]
          exact fun hh => hkk hh.symm
        simp [List.filter_cons, hkey, hkk]

theorem buildGroups_nodup {q : Query} {table : Rec} :
    ∀ {idx acc bkts}, (acc.map Prod.fst).Nodup →
      buildGroups q table idx acc = .ok bkts → (bkts.map Prod.fst).Nodup := by
  intro idx
  induction idx with
  | nil =>
    intro acc bkts hnd h
    cases h
    exact hnd
  | cons r rs ih =>
    intro acc bkts hnd h
    unfold buildGroups at h
    cases hk : groupKeyOf q table r with
    | error e => rw [hk] at h; cases h
    | ok k0 =>
      rw [hk] at h
      refine ih ?_ h
      rw [addToBucket_keys]
      by_cases hm : k0 ∈ acc.map Prod.fst
      · simp [hm, hnd]
      · rw [if_neg hm, List.nodup_append]
        refine ⟨hnd, List.nodup_singleton _, ?_⟩
        intro x hx hx'
        simp only [List.mem_singleton] at hx'
        subst hx'
        exact hm hx

theorem buildGroups_nonempty {q : Query} {table : Rec} :
    ∀ {idx acc bkts}, (∀ p ∈ acc, p.2 ≠ []) →
      buildGroups q table idx acc = .ok bkts → ∀ p ∈ bkts, p.2 ≠ [] := by
  intro idx
  induction idx with
  | nil =>
    intro acc bkts hne h
    cases h
    exact hne
  | cons r rs ih =>
    intro acc bkts hne h
    unfold buildGroups at h
    cases hk : groupKeyOf q table r with
    | error e => rw [hk] at h; cases h
    | ok k0 =>
      rw [hk] at h
      exact ih (addToBucket_nonempty hne) h

theorem mem_sortStrings {x : String} {l : List String} : x ∈ sortStrings l ↔ x ∈ l :=
  (sortStrings_perm l).mem_iff

theorem bucket_rows_eq_filter {q : Query} {table : Rec} {idx : List Nat}
    {bkts : List (String × List Nat)} (hb : buildGroups q table idx [] = .ok bkts)
    {k : String} {rows : List Nat} (hm : (k, rows) ∈ bkts) :
    rows = idx.filter (fun r => keyIs q table r k) := by
  have hnd := buildGroups_nodup (by simp) hb
  have hlk := mem_assocLookup_of_nodup hnd hm
  have hmain := buildGroups_lookup hb k
  rw [hlk] at hmain
  simpa using hmain

theorem bucket_rows_key {q : Query} {table : Rec} {idx : List Nat}
    {bkts : List (String × List Nat)} (hb : buildGroups q table idx [] = .ok bkts)
    {k : String} {rows : List Nat} {r : Nat} (hm : (k, rows) ∈ bkts) (hr : r ∈ rows) :
    groupKeyOf q table r = .ok k := by
  have hrows := bucket_rows_eq_filter hb hm
  rw [hrows] at hr
  have hkey := (List.mem_filter.mp hr).2
  unfold keyIs at hkey
  cases hk : groupKeyOf q table r with
  | error e => rw [hk] at hkey; cases hkey
  | ok kr =>
    rw [hk] at hkey
    have : kr = k := by simpa using hkey
    rw [this]

/-! ## C7 -/

/-- C7: in a grouped query, the buckets contain exactly the filtered rows
keyed by their canonical GroupKey string; two filtered rows share a group
iff their canonical key strings are equal; the output record has exactly
one row per distinct key; and the emitted key order is the ascending
lexicographic sort of the distinct keys (a permutation of them, pairwise
nondecreasing, with no duplicates). -/
theorem c7_group_by_canonical_keys (q : Query) (table : Rec) (idx : List Nat)
    (bkts : List (String × List Nat)) (rec : Rec)
    (hidx : filterRows q table = .ok idx)
    (hb : buildGroups q table idx [] = .ok bkts)
    (hrec : executeGroupedQuery q table idx = .ok rec) :
    (∀ k1 rows1 k2 rows2 r1 r2, (k1, rows1) ∈ bkts → (k2, rows2) ∈ bkts →
      r1 ∈ rows1 → r2 ∈ rows2 →
      (k1 = k2 ↔ groupKeyOf q table r1 = groupKeyOf q table r2))
    ∧ (∀ k, (assocLookup bkts k).getD [] = idx.filter (fun r => keyIs q table r k))
    ∧ rec.numRows = bkts.length
    ∧ (bkts.map Prod.fst).Nodup
    ∧ (sortStrings (bkts.map Prod.fst)).Pairwise (fun a b => strLe a b = true)
    ∧ List.Perm (sortStrings (bkts.map Prod.fst)) (bkts.map Prod.fst) := by
  refine ⟨?_, ?_, ?_, ?_, ?_, ?_⟩
  · intro k1 rows1 k2 rows2 r1 r2 hm1 hm2 hr1 hr2
    have hk1 := bucket_rows_key hb hm1 hr1
    have hk2 := bucket_rows_key hb hm2 hr2
    constructor
    · intro h
      rw [hk1, hk2, h]
    · intro h
      rw [hk1, hk2] at h
      exact Except.ok.inj h
  · intro k
    have := buildGroups_lookup hb k
    simpa using this
  · unfold executeGroupedQuery at hrec
    rw [hb] at hrec
    split at hrec
    · rename_i e heq
      cases heq
    · rename_i bkts2 heq
      cases heq
      split at hrec
      · cases hrec
      · dsimp only at hrec
        split at hrec
        · cases hrec
        · cases hrec
        · rename_i p heq3
          cases hrec
          show (sortStrings (bkts.map Prod.fst)).length = bkts.length
          rw [(sortStrings_perm _).length_eq, List.length_map]
  · exact buildGroups_nodup (by simp) hb
  · exact pairwise_sortStrings _
  · exact sortStrings_perm _

/-- C7 witness (instantiation): the spec's Region example — rows A, A, B
grouped by Region give buckets A → [0,1], B → [2] and a 2-row output. -/
theorem c7_witness :
    (⟨[⟨"Region", some .utf8, false⟩, ⟨"COUNT", some .float64, false⟩],
      [.strings [some "A", some "B"], .floats [some 2, some 1]], 2⟩ : Rec).numRows
      = ([("A", [0, 1]), ("B", [2])] : List (String × List Nat)).length
    ∧ (assocLookup [("A", [0, 1]), ("B", [2])] "A").getD []
      = [0, 1, 2].filter (fun r => keyIs
          ⟨[.ColumnRef "Region", .FuncCall "COUNT" [.StarExpr]], "t", none, [.ColumnRef "Region"]⟩
          ⟨[⟨"Region", some .utf8, true⟩], [.strings [some "A", some "A", some "B"]], 3⟩ r "A") :=
  ⟨(c7_group_by_canonical_keys
      ⟨[.ColumnRef "Region", .FuncCall "COUNT" [.StarExpr]], "t", none, [.ColumnRef "Region"]⟩
      ⟨[⟨"Region", some .utf8, true⟩], [.strings [some "A", some "A", some "B"]], 3⟩
      [0, 1, 2] [("A", [0, 1]), ("B", [2])]
      ⟨[⟨"Region", some .utf8, false⟩, ⟨"COUNT", some .float64, false⟩],
        [.strings [some "A", some "B"], .floats [some 2, some 1]], 2⟩
      rfl rfl rfl).2.2.1,
   (c7_group_by_canonical_keys
      ⟨[.ColumnRef "Region", .FuncCall "COUNT" [.StarExpr]], "t", none, [.ColumnRef "Region"]⟩
      ⟨[⟨"Region", some .utf8, true⟩], [.strings [some "A", some "A", some "B"]], 3⟩
      [0, 1, 2] [("A", [0, 1]), ("B", [2])]
      ⟨[⟨"Region", some .utf8, false⟩, ⟨"COUNT", some .float64, false⟩],
        [.strings [some "A", some "B"], .floats [some 2, some 1]], 2⟩
      rfl rfl rfl).2.1 "A"⟩

/-! ## C10 -/

theorem projStep_colref_null_panic {table : Rec} {c : String} {j : Nat}
    {cells : List (Option String)}
    (hcol : findColumnIndex table c = some j)
    (hcell : columnAt table j = .strings cells)
    {r0 : Nat} {rs : List Nat} (hnull : cells.getD r0 none = none)
    {i : Nat} {builders : List Builder} {fields : List Field} {scells : List (Option String)}
    (hbuild : builders.getD i (.flt []) = .str scells) :
    projStep table (r0 :: rs) i (.ColumnRef c) builders fields
      = .panic "interface conversion: interface {} is nil, not string" := by
  have hnull2 : cells[r0]?.getD none = none := by
    rw [← List.getD_eq_getElem?_getD]
    exact hnull
  have hbuild2 : builders[i]?.getD (Builder.flt []) = .str scells := by
    rw [← List.getD_eq_getElem?_getD]
    exact hbuild
  have hv : evaluateExpression (.ColumnRef c) table r0 = .ok .null := by
    simp [evaluateExpression, hcol, hcell, hnull2]
  simp [projStep, hcol, hcell, hbuild2, hv, orNull]

theorem projStep_colref_some {table : Rec} {c : String} {j : Nat}
    {cells : List (Option String)}
    (hcol : findColumnIndex table c = some j)
    (hcell : columnAt table j = .strings cells)
    {r0 : Nat} {rs : List Nat} {sv : String} (hs : cells.getD r0 none = some sv)
    {i : Nat} {builders : List Builder} {fields : List Field} {scells : List (Option String)}
    (hbuild : builders.getD i (.flt []) = .str scells) :
    projStep table (r0 :: rs) i (.ColumnRef c) builders fields
      = .ok (builders.set i (.str (scells ++ [some sv])),
             fields.set i ⟨c, some .utf8, false⟩) := by
  have hs2 : cells[r0]?.getD none = some sv := by
    rw [← List.getD_eq_getElem?_getD]
    exact hs
  have hbuild2 : builders[i]?.getD (Builder.flt []) = .str scells := by
    rw [← List.getD_eq_getElem?_getD]
    exact hbuild
  have hv : evaluateExpression (.ColumnRef c) table r0 = .ok (.s sv) := by
    simp [evaluateExpression, hcol, hcell, hs2]
  simp [projStep, hcol, hcell, hbuild2, hv, orNull]

theorem groupLoop_colref_null_panic {q : Query} {table : Rec}
    {bkts : List (String × List Nat)} {c : String} {j : Nat} {cells : List (Option String)}
    (hproj : q.Projections = [.ColumnRef c])
    (hcol : findColumnIndex table c = some j)
    (hcell : columnAt table j = .strings cells)
    (hne : ∀ p ∈ bkts, p.2 ≠ []) :
    ∀ (ks : List String) (scells : List (Option String)) (fields : List Field),
      (∀ k2 ∈ ks, k2 ∈ bkts.map Prod.fst) →
      (∃ k ∈ ks, ∃ r0 rs, assocLookup bkts k = some (r0 :: rs) ∧ cells.getD r0 none = none) →
      groupLoop q table bkts ks [.str scells] fields
        = .panic "interface conversion: interface {} is nil, not string" := by
  intro ks
  induction ks with
  | nil =>
    intro scells fields hmem hex
    rcases hex with ⟨k, hk, _⟩
    cases hk
  | cons k1 kt ih =>
    intro scells fields hmem hex
    have hk1 : k1 ∈ bkts.map Prod.fst := hmem k1 (List.mem_cons_self _ _)
    have hsome : (assocLookup bkts k1).isSome := assocLookup_isSome_iff.mpr hk1
    obtain ⟨rows1, hlk⟩ : ∃ rows1, assocLookup bkts k1 = some rows1 := by
      cases hq : assocLookup bkts k1 with
      | none => rw [hq] at hsome; cases hsome
      | some rows1 => exact ⟨rows1, rfl⟩
    have hmem1 : (k1, rows1) ∈ bkts := assocLookup_eq_some_mem hlk
    have hne1 : rows1 ≠ [] := hne _ hmem1
    obtain ⟨r1, rs1, hrows1⟩ : ∃ a l, rows1 = a :: l := by
      cases rows1 with
      | nil => exact absurd rfl hne1
      | cons a l => exact ⟨a, l, rfl⟩
    subst hrows1
    cases hc : cells.getD r1 none with
    | none =>
      have hps := @projStep_colref_null_panic table c j cells hcol hcell r1 rs1 hc
        0 [.str scells] fields scells rfl
      simp [groupLoop, hlk, hproj, projRow, hps]
    | some sv =>
      have hps := @projStep_colref_some table c j cells hcol hcell r1 rs1 sv hc
        0 [.str scells] fields scells rfl
      have hexkt : ∃ k ∈ kt, ∃ r0 rs, assocLookup bkts k = some (r0 :: rs)
          ∧ cells.getD r0 none = none := by
        rcases hex with ⟨k, hkmem, r0, rs0, hlk0, hc0⟩
        rcases List.mem_cons.mp hkmem with rfl | hkt
        · rw [hlk] at hlk0
          injection hlk0 with hh
          injection hh with h1 h2
          rw [← h1] at hc0
          rw [hc0] at hc
          cases hc
        · exact ⟨k, hkt, r0, rs0, hlk0, hc0⟩
      have hrec := ih (scells ++ [some sv]) (fields.set 0 ⟨c, some .utf8, false⟩)
        (fun k2 hk2 => hmem k2 (List.mem_cons_of_mem _ hk2)) hexkt
      simp [groupLoop, hlk, hproj, projRow, hps, hrec]

/-- C10: in a grouped query whose projection is a ColumnRef to a
string-typed column, if the representative (first) row of some group holds
a null cell in that column, execution performs the unchecked Go type
assertion val.(string) on a nil interface value and PANICS — no error
value is returned and no null cell is appended. -/
theorem c10_grouped_null_string_panics (q : Query) (table : Rec) (c : String) (j : Nat)
    (idx : List Nat) (bkts : List (String × List Nat)) (cells : List (Option String))
    (k : String) (rows : List Nat) (r0 : Nat) (rs : List Nat)
    (hproj : q.Projections = [.ColumnRef c])
    (hg : q.GroupBy ≠ [])
    (hidx : filterRows q table = .ok idx)
    (hb : buildGroups q table idx [] = .ok bkts)
    (hcol : findColumnIndex table c = some j)
    (hcell : columnAt table j = .strings cells)
    (hbkt : (k, rows) ∈ bkts)
    (hrows : rows = r0 :: rs)
    (hnull : cells.getD r0 none = none) :
    ExecuteQuery q table = .panic "interface conversion: interface {} is nil, not string" := by
  subst hrows
  have hne := buildGroups_nonempty (by simp) hb
  have hnd := buildGroups_nodup (by simp) hb
  have hlk : assocLookup bkts k = some (r0 :: rs) := mem_assocLookup_of_nodup hnd hbkt
  obtain ⟨projs, tn, w, gb⟩ := q
  simp only at hproj hg hidx hb
  subst hproj
  cases gb with
  | nil => exact absurd rfl hg
  | cons g gtl =>
    have hib : initBuilders table [Expression.ColumnRef c] = .ok [.str []] := by
      simp [initBuilders, initBuilder, hcol, hcell]
    have hgl := @groupLoop_colref_null_panic ⟨[.ColumnRef c], tn, w, g :: gtl⟩ table bkts
      c j cells rfl hcol hcell hne
      (sortStrings (bkts.map Prod.fst)) []
      ([⟨"", none, false⟩] : List Field)
      (fun k2 hk2 => mem_sortStrings.mp hk2)
      ⟨k, mem_sortStrings.mpr (List.mem_map_of_mem Prod.fst hbkt), r0, rs, hlk, hnull⟩
    unfold ExecuteQuery executeGroupedQuery
    simp [hidx, hb, hib, hgl, isFuncCall]

unseal Rat.add Rat.sub Rat.mul Rat.inv Rat.ofScientific in
/-- C10 witness (instantiation): grouping by Region with projection Name,
where the first row of group "A" has a null Name, panics. -/
theorem c10_witness :
    ExecuteQuery ⟨[.ColumnRef "Name"], "t", none, [.ColumnRef "Region"]⟩
      ⟨[⟨"Region", some .utf8, true⟩, ⟨"Name", some .utf8, true⟩],
       [.strings [some "A", some "A"], .strings [none, some "x"]], 2⟩
      = .panic "interface conversion: interface {} is nil, not string" :=
  c10_grouped_null_string_panics
    ⟨[.ColumnRef "Name"], "t", none, [.ColumnRef "Region"]⟩
    ⟨[⟨"Region", some .utf8, true⟩, ⟨"Name", some .utf8, true⟩],
     [.strings [some "A", some "A"], .strings [none, some "x"]], 2⟩
    "Name" 1 [0, 1] [("A", [0, 1])] [none, some "x"] "A" [0, 1] 0 [1]
    rfl (by simp) rfl rfl rfl rfl (by simp) rfl rfl

end TinyLake
